import Mathlib

/-!
Shallow embedding of `om_shutters.py` (class `OpenMoticsShutter`).

Ints (Python naive `datetime` values) are modelled as `Int`: microseconds
since the Unix epoch.  A naive `datetime` with fields
`(year, month, day, hour, minute, second, microsecond)` corresponds to the
integer `86400000000 * daysSinceEpoch + 1000000 * secondOfDay + microsecond`;
`datetime` comparison is exactly integer comparison of this value, and
`timedelta(hours=20)` addition is addition of `72000000000`.

The history file (`history.json`) maps `str(output)` keys to date strings in
the format `%Y-%m-%dT%H:%M:%S+00:00`; the program only ever stores strings
produced by `_write_date` and reads them back with `_read_date`, so the
mapping is modelled with the parsed instant as the value, and the
format/parse round trip `_read_date (_write_date t)` is modelled by
`write_date`, truncation of the instant to whole seconds (the `strftime`
format has second precision: the `microsecond` field is dropped).

The `pytz` time-zone database is external data, so the Europe/Brussels UTC
offset is abstracted as a parameter `tzoff : Int → Int` giving, in seconds,
the offset `tz.localize(dt).utcoffset()` that pytz assigns to the naive local
instant `dt`; theorems quantify over it.
-/

namespace OmShutters

abbrev History := List (String × Int)

def usPerSec : Int := 1000000

def usPerDay : Int := 86400000000

/-- `timedelta(hours=20)` in microseconds. -/
def hours20 : Int := 72000000000

/-- Models `_write_date` (strftime with `%Y-%m-%dT%H:%M:%S+00:00`) composed
with the `_read_date` parse that every later reader of the stored string
performs: the format has second precision, so the stored instant is `date`
with its `microsecond` field dropped, i.e. floored to a whole second. -/
def write_date (date : Int) : Int := usPerSec * (date / usPerSec)

/-- `history.get(key, None)` on the JSON object, modelled as an association
list with the first binding for a key winning. -/
def lookup : History → String → Option Int
  | [], _ => none
  | (k, v) :: rest, key => if k = key then some v else lookup rest key

/-- `history[key] = value` on the JSON object: replaces the binding for
`key` if present, otherwise appends a new one. -/
def setEntry : History → String → Int → History
  | [], key, v => [(key, v)]
  | (k, w) :: rest, key, v =>
    if k = key then (key, v) :: rest else (k, w) :: setEntry rest key v

/-- `_check_history(output, date)`: true (OK to trigger) iff there is no
entry for `str(output)` or `date > last_set + timedelta(hours=20)`. -/
def check_history (h : History) (output : Nat) (date : Int) : Bool :=
  match lookup h (toString output) with
  | none => true
  | some last_set => decide (last_set + hours20 < date)

/-- The spec's `was_triggered_recently(output_id, now)` (§4.2): the negation
of `_check_history`, which is how `_trigger_blinds` consumes it
(`if not self._check_history(output, local_now)`). -/
def was_triggered_recently (h : History) (output : Nat) (now : Int) : Bool :=
  ! check_history h output now

/-- `_add_history(output, date)`: read-modify-write of the history object,
setting the entry for `str(output)`.  The `date` argument is the already
formatted value the caller passes. -/
def add_history (h : History) (output : Nat) (date : Int) : History :=
  setEntry h (toString output) date

/-- The spec's `record_trigger(output_id, when)` (§4.2): what
`_trigger_blinds` performs, `_add_history(output, _write_date(local_now))`. -/
def record_trigger (h : History) (output : Nat) (t : Int) : History :=
  add_history h output (write_date t)

/-- Python `str.split(sep, 1)` restricted to the shape `_parse_hour_minute`
needs: split at the first `':'`.  `none` models the `ValueError` raised by
unpacking a one-element list when the string has no colon. -/
def splitOnceAux : List Char → Option (List Char × List Char)
  | [] => none
  | c :: cs =>
    if c = ':' then some ([], cs)
    else
      match splitOnceAux cs with
      | none => none
      | some (a, b) => some (c :: a, b)

def splitOnce (s : String) : Option (String × String) :=
  match splitOnceAux s.data with
  | none => none
  | some (a, b) => some (String.mk a, String.mk b)

/-- Surrounding whitespace that Python's `int()` ignores. -/
def stripSpaces (cs : List Char) : List Char :=
  ((cs.dropWhile Char.isWhitespace).reverse.dropWhile Char.isWhitespace).reverse

def digitsVal (cs : List Char) : Option Nat :=
  cs.foldl
    (fun acc c =>
      match acc with
      | none => none
      | some a => if c.isDigit then some (10 * a + (c.toNat - 48)) else none)
    (some 0)

/-- Python `int(s)` on a decimal string: optional surrounding whitespace, an
optional sign, then one or more digits; `none` models `ValueError`. -/
def pyInt (s : String) : Option Int :=
  match stripSpaces s.data with
  | [] => none
  | '+' :: ds =>
    if ds = [] then none else (digitsVal ds).map (fun n => (n : Int))
  | '-' :: ds =>
    if ds = [] then none else (digitsVal ds).map (fun n => -(n : Int))
  | ds => (digitsVal ds).map (fun n => (n : Int))

/-- Start of the civil day of `t`: `datetime(t.year, t.month, t.day)` as an
instant, i.e. `t` floored to a whole day. -/
def dayStart (t : Int) : Int := usPerDay * (t / usPerDay)

/-- `_parse_hour_minute(local_now_dt, value)`.  `none` is returned where the
Python code returns `None` (falsy value, or a `ValueError` from the split
unpacking, `int()`, or the `datetime` constructor's range check); no other
outcome exists, so the function never raises.  On success the result is
`datetime(year, month, day, hour, minute)` — the start of `local_now_dt`'s
day plus the parsed time of day — localized to Europe/Brussels (offset
`tzoff` seconds east of UTC), converted to UTC and stripped of its tzinfo. -/
def parse_hour_minute (tzoff : Int → Int) (local_now_dt : Int)
    (value : Option String) : Option Int :=
  match value with
  | none => none
  | some s =>
    if s = "" then none
    else
      match splitOnce s with
      | none => none
      | some (hs, ms) =>
        match pyInt hs, pyInt ms with
        | some hour, some minute =>
          if 0 ≤ hour ∧ hour ≤ 23 ∧ 0 ≤ minute ∧ minute ≤ 59 then
            let naive := dayStart local_now_dt + (hour * 3600 + minute * 60) * usPerSec
            some (naive - tzoff naive * usPerSec)
          else none
        | _, _ => none

/-- One row of `self.shutters`: room name maps to the 6-tuple
`(up, down, auto_up, auto_down, earliest_up, latest_down)`. -/
structure ShutterCfg where
  up : Nat
  down : Nat
  auto_up : Bool
  auto_down : Bool
  earliest_up : Option String
  latest_down : Option String
deriving DecidableEq

/-- Loop body of `_find_blinds_to_rise`: the contribution of one room to
`blinds_to_rise` (after the global sunrise gate has already passed). -/
def riseCheck (tzoff : Int → Int) (local_now_dt : Int)
    (rc : String × ShutterCfg) : Option (String × Nat) :=
  if rc.2.auto_up = false then none
  else
    match parse_hour_minute tzoff local_now_dt rc.2.earliest_up with
    | some earliest_up_dt =>
      if local_now_dt < earliest_up_dt then none else some (rc.1, rc.2.up)
    | none => some (rc.1, rc.2.up)

/-- `_find_blinds_to_rise(sunrise_dt, local_now_dt)`.  `self.shutters` is a
dict (unique room names); it is modelled as an association list. -/
def find_blinds_to_rise (tzoff : Int → Int) (sunrise_dt local_now_dt : Int)
    (shutters : List (String × ShutterCfg)) : List (String × Nat) :=
  if sunrise_dt ≤ local_now_dt then shutters.filterMap (riseCheck tzoff local_now_dt)
  else []

/-- Loop body of `_find_blinds_to_shut`: the contribution of one room to
`blinds_to_shut`. -/
def shutCheck (tzoff : Int → Int) (sunset_dt local_now_dt : Int)
    (rc : String × ShutterCfg) : Option (String × Nat) :=
  if rc.2.auto_down = false then none
  else
    match parse_hour_minute tzoff local_now_dt rc.2.latest_down with
    | some latest_down_dt =>
      if latest_down_dt < local_now_dt then some (rc.1, rc.2.down)
      else if sunset_dt ≤ local_now_dt then some (rc.1, rc.2.down) else none
    | none => if sunset_dt ≤ local_now_dt then some (rc.1, rc.2.down) else none

/-- `_find_blinds_to_shut(sunset_dt, local_now_dt)`. -/
def find_blinds_to_shut (tzoff : Int → Int) (sunset_dt local_now_dt : Int)
    (shutters : List (String × ShutterCfg)) : List (String × Nat) :=
  shutters.filterMap (shutCheck tzoff sunset_dt local_now_dt)

/-- Which branch of `_trigger_blinds` ran, distinguished in the code by its
log line: "Blind was already triggered" (suppressed), "DRY RUN; not doing
anything" (dryRun), or the actual device call (triggered).  The Python
return value is `true` exactly for `triggered`. -/
inductive Outcome
  | suppressed
  | dryRun
  | triggered
deriving DecidableEq

/-- Observable state touched by the Trigger Executor: the history file
(`none` models a missing or invalid-JSON file, which makes `open`/`json.load`
raise) and the sequence of `api.set_output(output, True)` calls issued. -/
structure World where
  historyFile : Option History
  apiCalls : List Nat
deriving DecidableEq

/-- `_trigger_blinds(room, output)` at instant `local_now` (the code takes
`datetime.now()` itself; here it is a parameter).  The history file is read
first by `_check_history`; a missing/corrupt file raises (`Except.error`)
before the `dry_run` flag is ever consulted.  `dry_run is not False` is
modelled as `dry_run = true` since the config field is a JSON boolean. -/
def trigger_blinds (dry_run : Bool) (w : World) (room : String) (output : Nat)
    (local_now : Int) : Except Unit (World × Outcome) :=
  match w.historyFile with
  | none => .error ()
  | some h =>
    if check_history h output local_now = false then .ok (w, .suppressed)
    else if dry_run then .ok (w, .dryRun)
    else
      .ok (World.mk (some (add_history h output (write_date local_now)))
            (w.apiCalls ++ [output]),
           .triggered)

/-- `_trigger_all_blinds(blinds)`.  `clock i` is the `datetime.now()` read by
the `i`-th `_trigger_blinds` call; the 3-second pacing sleep after a
`triggered` outcome has no observable effect in this model and is omitted. -/
def trigger_all_blinds (dry_run : Bool) (clock : Nat → Int) :
    List (String × Nat) → Nat → World → Except Unit World
  | [], _, w => .ok w
  | (room, output) :: rest, i, w =>
    match trigger_blinds dry_run w room output (clock i) with
    | .error e => .error e
    | .ok (w2, _) => trigger_all_blinds dry_run clock rest (i + 1) w2

/-! Helper lemmas shared by the claim theorems. -/

theorem lookup_setEntry_self (h : History) (k : String) (v : Int) :
    lookup (setEntry h k v) k = some v := by
  induction h with
  | nil => simp [setEntry, lookup]
  | cons hd tl ih =>
    obtain ⟨k2, v2⟩ := hd
    by_cases hk : k2 = k
    · simp [setEntry, hk, lookup]
    · simp [setEntry, hk, lookup, ih]

theorem lookup_setEntry_ne (h : History) (k k2 : String) (v : Int)
    (hne : k2 ≠ k) : lookup (setEntry h k v) k2 = lookup h k2 := by
  induction h with
  | nil => simp [setEntry, lookup, Ne.symm hne]
  | cons hd tl ih =>
    obtain ⟨k3, v3⟩ := hd
    by_cases hk : k3 = k
    · subst hk
      simp [setEntry, lookup, Ne.symm hne]
    · simp [setEntry, hk, lookup, ih]

theorem write_date_bounds (t : Int) :
    write_date t ≤ t ∧ t < write_date t + usPerSec ∧ write_date t % usPerSec = 0 := by
  unfold write_date usPerSec
  omega

theorem riseCheck_fst {tzoff : Int → Int} {local_now_dt : Int}
    {rc : String × ShutterCfg} {p : String × Nat}
    (h : riseCheck tzoff local_now_dt rc = some p) : p.1 = rc.1 := by
  unfold riseCheck at h
  split at h
  · exact absurd h (by simp)
  · split at h
    · split at h
      · exact absurd h (by simp)
      · cases h
        rfl
    · cases h
      rfl

theorem shutCheck_fst {tzoff : Int → Int} {sunset_dt local_now_dt : Int}
    {rc : String × ShutterCfg} {p : String × Nat}
    (h : shutCheck tzoff sunset_dt local_now_dt rc = some p) : p.1 = rc.1 := by
  unfold shutCheck at h
  split at h
  · exact absurd h (by simp)
  · split at h
    · split at h
      · cases h
        rfl
      · split at h
        · cases h
          rfl
        · exact absurd h (by simp)
    · split at h
      · cases h
        rfl
      · exact absurd h (by simp)

theorem keyval_unique {α : Type} {l : List (String × α)}
    (hnd : (l.map Prod.fst).Nodup) {k : String} {a b : α}
    (ha : (k, a) ∈ l) (hb : (k, b) ∈ l) : a = b := by
  induction l with
  | nil => cases ha
  | cons hd tl ih =>
    rw [List.map_cons, List.nodup_cons] at hnd
    rcases List.mem_cons.mp ha with ha1 | ha1 <;>
      rcases List.mem_cons.mp hb with hb1 | hb1
    · exact (Prod.ext_iff.mp (ha1.trans hb1.symm)).2
    · cases ha1
      exact absurd (List.mem_map.mpr ⟨(k, b), hb1, rfl⟩) hnd.1
    · cases hb1
      exact absurd (List.mem_map.mpr ⟨(k, a), ha1, rfl⟩) hnd.1
    · exact ih hnd.2 ha1 hb1

/-! Claim theorems. -/

/-- C2: if `local_now` is strictly before `sunrise_utc`, the Decision Engine
returns an empty `rise_list`, regardless of any room's `auto_up` flag or
`earliest_up` override. -/
theorem rise_list_empty_before_sunrise (tzoff : Int → Int)
    (sunrise_dt local_now_dt : Int)
    (shutters : List (String × ShutterCfg)) (hlt : local_now_dt < sunrise_dt) :
    find_blinds_to_rise tzoff sunrise_dt local_now_dt shutters = [] := by
  unfold find_blinds_to_rise
  rw [if_neg]
  omega

theorem rise_list_empty_before_sunrise_witness :
    find_blinds_to_rise (fun _ => 0) 10 5
      [("living", ⟨1, 2, true, true, none, none⟩)] = [] :=
  rise_list_empty_before_sunrise (fun _ => 0) 10 5
    [("living", ⟨1, 2, true, true, none, none⟩)] (by decide)

/-- C5: `was_triggered_recently(output_id, now)` is false when the history
has no entry for `str(output_id)`; when an entry `last` exists it is true
when `now <= last + 20 hours` and false when `now > last + 20 hours`. -/
theorem was_triggered_recently_spec (h : History) (output : Nat) (now : Int) :
    (lookup h (toString output) = none →
      was_triggered_recently h output now = false) ∧
    (∀ last, lookup h (toString output) = some last →
      (now ≤ last + hours20 → was_triggered_recently h output now = true) ∧
      (last + hours20 < now → was_triggered_recently h output now = false)) := by
  constructor
  · intro hnone
    simp [was_triggered_recently, check_history, hnone]
  · intro last hsome
    constructor <;> intro hcmp <;>
      simp [was_triggered_recently, check_history, hsome] <;> omega

theorem was_triggered_recently_spec_witness :
    was_triggered_recently [("7", 1000)] 7 500 = true ∧
    was_triggered_recently [("7", 1000)] 7 (1000 + hours20 + 1) = false ∧
    was_triggered_recently [] 7 500 = false :=
  ⟨((was_triggered_recently_spec [("7", 1000)] 7 500).2 1000 (by decide)).1
      (by decide),
   ((was_triggered_recently_spec [("7", 1000)] 7 (1000 + hours20 + 1)).2 1000
      (by decide)).2 (by decide),
   (was_triggered_recently_spec [] 7 500).1 (by decide)⟩

/-- C6 counterexample: at `t = 500000` (0.5 seconds past the epoch, so the
stored, second-precision timestamp is `0`), immediately after
`record_trigger(5, t)` the value `was_triggered_recently(5, t)` is `true`,
not `false` as the claim states; and at `t2 = t + 20h`, which the claim puts
inside the "true" window `t <= t2 <= t + 20h`, the value is `false`, because
the stored timestamp was truncated to whole seconds. -/
theorem record_then_check_claim_refuted :
    was_triggered_recently (record_trigger [] 5 500000) 5 500000 = true ∧
    (500000 : Int) ≤ 500000 + hours20 ∧
    was_triggered_recently (record_trigger [] 5 500000) 5 (500000 + hours20) =
      false := by
  decide

/-- C6 (amended): after `record_trigger(output, t)`,
`was_triggered_recently(output, t2)` is true exactly when
`t2 <= write_date t + 20h`, where `write_date t` is `t` truncated to second
precision; in particular it is true immediately (at `t2 = t`), true for every
`t2` with `t <= t2 <= write_date t + 20h`, and false for every
`t2 > t + 20h`. -/
theorem record_then_check_amended (h : History) (output : Nat) (t t2 : Int) :
    (was_triggered_recently (record_trigger h output t) output t2 = true ↔
      t2 ≤ write_date t + hours20) ∧
    was_triggered_recently (record_trigger h output t) output t = true ∧
    (t ≤ t2 → t2 ≤ write_date t + hours20 →
      was_triggered_recently (record_trigger h output t) output t2 = true) ∧
    (t + hours20 < t2 →
      was_triggered_recently (record_trigger h output t) output t2 = false) := by
  have h1 : usPerSec = 1000000 := rfl
  have h2 : hours20 = 72000000000 := rfl
  have hb := write_date_bounds t
  have hl : lookup (record_trigger h output t) (toString output) =
      some (write_date t) :=
    lookup_setEntry_self h (toString output) (write_date t)
  have key : ∀ u, was_triggered_recently (record_trigger h output t) output u =
      true ↔ u ≤ write_date t + hours20 := by
    intro u
    simp [was_triggered_recently, check_history, hl]
  refine ⟨key t2, (key t).mpr (by omega), fun _ hu => (key t2).mpr hu, fun hgt => ?_⟩
  have hx : ¬ (t2 ≤ write_date t + hours20) := by omega
  cases hv : was_triggered_recently (record_trigger h output t) output t2 with
  | false => rfl
  | true => exact absurd ((key t2).mp hv) hx

theorem record_then_check_amended_witness :
    was_triggered_recently (record_trigger [] 9 1500000) 9 2000000 = true ∧
    was_triggered_recently (record_trigger [] 9 1500000) 9
      (1500000 + hours20 + 1) = false :=
  ⟨(record_then_check_amended [] 9 1500000 2000000).2.2.1 (by decide) (by decide),
   (record_then_check_amended [] 9 1500000 (1500000 + hours20 + 1)).2.2.2
     (by decide)⟩

/-- C9: `record_trigger(output_id, when)` stores, under the key
`str(output_id)`, `when` at second precision (its value is `when` floored to
a whole second, with no sub-second component), leaves the entry of every
other key unchanged, and deletes no entry. -/
theorem record_trigger_frame (h : History) (output : Nat) (t : Int) :
    lookup (record_trigger h output t) (toString output) = some (write_date t) ∧
    (write_date t ≤ t ∧ t < write_date t + usPerSec ∧
      write_date t % usPerSec = 0) ∧
    (∀ k, k ≠ toString output →
      lookup (record_trigger h output t) k = lookup h k) ∧
    (∀ k v, lookup h k = some v →
      (lookup (record_trigger h output t) k).isSome = true) := by
  have hself : lookup (record_trigger h output t) (toString output) =
      some (write_date t) :=
    lookup_setEntry_self h (toString output) (write_date t)
  have hother : ∀ k, k ≠ toString output →
      lookup (record_trigger h output t) k = lookup h k :=
    fun k hk => lookup_setEntry_ne h (toString output) k (write_date t) hk
  refine ⟨hself, write_date_bounds t, hother, ?_⟩
  intro k v hv
  by_cases hk : k = toString output
  · subst hk
    rw [hself]
    rfl
  · rw [hother k hk, hv]
    rfl

theorem record_trigger_frame_witness :
    lookup (record_trigger [("2", 77), ("3", 88)] 3 1500000) "3" = some 1000000 ∧
    lookup (record_trigger [("2", 77), ("3", 88)] 3 1500000) "2" = some 77 ∧
    (lookup (record_trigger [("2", 77), ("3", 88)] 3 1500000) "2").isSome = true :=
  ⟨(record_trigger_frame [("2", 77), ("3", 88)] 3 1500000).1,
   by
    rw [(record_trigger_frame [("2", 77), ("3", 88)] 3 1500000).2.2.1 "2"
      (by decide)]
    rfl,
   (record_trigger_frame [("2", 77), ("3", 88)] 3 1500000).2.2.2 "2" 77 rfl⟩

/-- C7: with `dry_run = true`, processing any list of (room, output) pairs
issues no device-control call and leaves the history file unchanged (the
whole observable world is returned as it was), for any readable history
state. -/
theorem dry_run_no_effects (clock : Nat → Int) (pairs : List (String × Nat))
    (i : Nat) (w : World) (h : History) (hfile : w.historyFile = some h) :
    trigger_all_blinds true clock pairs i w = .ok w := by
  induction pairs generalizing i with
  | nil => rfl
  | cons pr rest ih =>
    obtain ⟨room, output⟩ := pr
    have hstep : trigger_blinds true w room output (clock i) =
        if check_history h output (clock i) = false then
          Except.ok (w, Outcome.suppressed)
        else Except.ok (w, Outcome.dryRun) := by
      by_cases hch : check_history h output (clock i) = false <;>
        simp [trigger_blinds, hfile, hch]
    rw [trigger_all_blinds, hstep]
    by_cases hch : check_history h output (clock i) = false
    · rw [if_pos hch]
      exact ih (i + 1)
    · rw [if_neg hch]
      exact ih (i + 1)

theorem dry_run_no_effects_witness :
    trigger_all_blinds true (fun _ => 0) [("living", 1), ("kitchen", 2)] 0
      (World.mk (some [("1", 0)]) []) = .ok (World.mk (some [("1", 0)]) []) :=
  dry_run_no_effects (fun _ => 0) [("living", 1), ("kitchen", 2)] 0
    (World.mk (some [("1", 0)]) []) [("1", 0)] rfl

/-- C10: `_trigger_blinds` reads the history file before consulting
`dry_run`: a missing/invalid history file is fatal (an exception) even in
dry-run mode, and a recently-triggered output is reported as suppressed —
not as dry-run — without reaching the dry-run branch; a whole
`_trigger_all_blinds` run over a non-empty list is likewise fatal. -/
theorem history_read_before_dry_run (dry_run : Bool) (w : World) (room : String)
    (output : Nat) (now : Int) :
    (w.historyFile = none →
      trigger_blinds dry_run w room output now = .error ()) ∧
    (∀ h, w.historyFile = some h → check_history h output now = false →
      trigger_blinds dry_run w room output now = .ok (w, .suppressed)) ∧
    (w.historyFile = none → ∀ clock rest i,
      trigger_all_blinds dry_run clock ((room, output) :: rest) i w =
        .error ()) := by
  refine ⟨?_, ?_, ?_⟩
  · intro hn
    simp [trigger_blinds, hn]
  · intro h hs hch
    simp [trigger_blinds, hs, hch]
  · intro hn clock rest i
    simp [trigger_all_blinds, trigger_blinds, hn]

theorem history_read_before_dry_run_witness :
    trigger_blinds true (World.mk none []) "living" 1 0 = .error () ∧
    trigger_blinds true (World.mk (some [("1", 0)]) []) "living" 1 500 =
      .ok (World.mk (some [("1", 0)]) [], .suppressed) ∧
    trigger_all_blinds true (fun _ => 0) [("living", 1)] 0 (World.mk none []) =
      .error () :=
  ⟨(history_read_before_dry_run true (World.mk none []) "living" 1 0).1 rfl,
   (history_read_before_dry_run true (World.mk (some [("1", 0)]) [])
     "living" 1 500).2.1 [("1", 0)] rfl (by decide),
   (history_read_before_dry_run true (World.mk none []) "living" 1 0).2.2 rfl
     (fun _ => 0) [] 0⟩

/-- C1: a room with `auto_down` and a `latest_down` that parses to an
instant strictly before `local_now` is put in `shut_list` as
`(room, down_output)` whatever the sunset instant is; with a parsed
`latest_down` at or after `local_now` the room is not forced and obeys the
global sunset gate: it is in `shut_list` iff `local_now >= sunset_utc`. -/
theorem latest_down_forces_shut (tzoff : Int → Int) (sunset_dt local_now_dt : Int)
    (shutters : List (String × ShutterCfg)) (room : String) (cfg : ShutterCfg)
    (hmem : (room, cfg) ∈ shutters) (hauto : cfg.auto_down = true) :
    (∀ l, parse_hour_minute tzoff local_now_dt cfg.latest_down = some l →
      l < local_now_dt →
      (room, cfg.down) ∈ find_blinds_to_shut tzoff sunset_dt local_now_dt shutters) ∧
    (∀ l, parse_hour_minute tzoff local_now_dt cfg.latest_down = some l →
      local_now_dt ≤ l → (shutters.map Prod.fst).Nodup →
      ((room, cfg.down) ∈ find_blinds_to_shut tzoff sunset_dt local_now_dt shutters ↔
        sunset_dt ≤ local_now_dt)) := by
  constructor
  · intro l hl hlt
    unfold find_blinds_to_shut
    refine List.mem_filterMap.mpr ⟨(room, cfg), hmem, ?_⟩
    simp [shutCheck, hauto, hl, hlt]
  · intro l hl hle hnd
    constructor
    · intro hmem2
      unfold find_blinds_to_shut at hmem2
      obtain ⟨⟨r2, c2⟩, hmem3, heq⟩ := List.mem_filterMap.mp hmem2
      have hr : r2 = room := (shutCheck_fst heq).symm
      subst hr
      have hc : c2 = cfg := keyval_unique hnd hmem3 hmem
      subst hc
      by_contra hns
      have hnlt : ¬ (l < local_now_dt) := by omega
      simp [shutCheck, hauto, hl, hnlt, hns] at heq
    · intro hsun
      unfold find_blinds_to_shut
      refine List.mem_filterMap.mpr ⟨(room, cfg), hmem, ?_⟩
      have hnlt : ¬ (l < local_now_dt) := by omega
      simp [shutCheck, hauto, hl, hnlt, hsun]

theorem latest_down_forces_shut_witness :
    ("living", 2) ∈ find_blinds_to_shut (fun _ => 0) 999999999999999 1000
      [("living", ⟨1, 2, true, true, none, some "0:00"⟩)] ∧
    ("living", 2) ∉ find_blinds_to_shut (fun _ => 0) 999999999999999 1000
      [("living", ⟨1, 2, true, true, none, some "23:59"⟩)] :=
  ⟨(latest_down_forces_shut (fun _ => 0) 999999999999999 1000
      [("living", ⟨1, 2, true, true, none, some "0:00"⟩)] "living"
      ⟨1, 2, true, true, none, some "0:00"⟩ (by simp) rfl).1 0
      (by decide) (by decide),
   fun hm => absurd
     (((latest_down_forces_shut (fun _ => 0) 999999999999999 1000
        [("living", ⟨1, 2, true, true, none, some "23:59"⟩)] "living"
        ⟨1, 2, true, true, none, some "23:59"⟩ (by simp) rfl).2
        86340000000 (by decide) (by decide) (by simp)).mp hm)
     (by decide)⟩

/-- C3: a room with `auto_up` and an `earliest_up` that parses to an instant
strictly after `local_now` is excluded from `rise_list` (whatever the
sunrise instant is); when `earliest_up` is absent, unparseable, or parses to
an instant at or before `local_now`, the room — with `auto_up` true and the
sunrise gate passed — is included in `rise_list` as `(room, up_output)`. -/
theorem earliest_up_delays_rise (tzoff : Int → Int) (sunrise_dt local_now_dt : Int)
    (shutters : List (String × ShutterCfg)) (room : String) (cfg : ShutterCfg)
    (hmem : (room, cfg) ∈ shutters) (hauto : cfg.auto_up = true) :
    (∀ e, parse_hour_minute tzoff local_now_dt cfg.earliest_up = some e →
      local_now_dt < e → (shutters.map Prod.fst).Nodup →
      (room, cfg.up) ∉ find_blinds_to_rise tzoff sunrise_dt local_now_dt shutters) ∧
    (sunrise_dt ≤ local_now_dt →
      (parse_hour_minute tzoff local_now_dt cfg.earliest_up = none ∨
        (∃ e, parse_hour_minute tzoff local_now_dt cfg.earliest_up = some e ∧
          e ≤ local_now_dt)) →
      (room, cfg.up) ∈ find_blinds_to_rise tzoff sunrise_dt local_now_dt shutters) := by
  constructor
  · intro e he hlt hnd hmem2
    unfold find_blinds_to_rise at hmem2
    split at hmem2
    · obtain ⟨⟨r2, c2⟩, hmem3, heq⟩ := List.mem_filterMap.mp hmem2
      have hr : r2 = room := (riseCheck_fst heq).symm
      subst hr
      have hc : c2 = cfg := keyval_unique hnd hmem3 hmem
      subst hc
      simp [riseCheck, hauto, he, hlt] at heq
    · exact absurd hmem2 (List.not_mem_nil _)
  · intro hsun hpe
    unfold find_blinds_to_rise
    rw [if_pos hsun]
    refine List.mem_filterMap.mpr ⟨(room, cfg), hmem, ?_⟩
    rcases hpe with hpe | ⟨e, he, hle⟩
    · simp [riseCheck, hauto, hpe]
    · have hnlt : ¬ (local_now_dt < e) := by omega
      simp [riseCheck, hauto, he, hnlt]

theorem earliest_up_delays_rise_witness :
    ("living", 1) ∉ find_blinds_to_rise (fun _ => 0) 0 1000
      [("living", ⟨1, 2, true, true, some "23:59", none⟩)] ∧
    ("living", 1) ∈ find_blinds_to_rise (fun _ => 0) 0 1000
      [("living", ⟨1, 2, true, true, none, none⟩)] :=
  ⟨(earliest_up_delays_rise (fun _ => 0) 0 1000
      [("living", ⟨1, 2, true, true, some "23:59", none⟩)] "living"
      ⟨1, 2, true, true, some "23:59", none⟩ (by simp) rfl).1
      86340000000 (by decide) (by decide) (by simp),
   (earliest_up_delays_rise (fun _ => 0) 0 1000
      [("living", ⟨1, 2, true, true, none, none⟩)] "living"
      ⟨1, 2, true, true, none, none⟩ (by simp) rfl).2
      (by decide) (Or.inl rfl)⟩

/-- C4: a room with `auto_up` false never appears in `rise_list`, and a room
with `auto_down` false never appears in `shut_list`, for any sun times and
any `earliest_up`/`latest_down` values. -/
theorem auto_flags_gate (tzoff : Int → Int)
    (sunrise_dt sunset_dt local_now_dt : Int)
    (shutters : List (String × ShutterCfg)) (room : String) (cfg : ShutterCfg)
    (hmem : (room, cfg) ∈ shutters) (hnd : (shutters.map Prod.fst).Nodup) :
    (cfg.auto_up = false → ∀ o,
      (room, o) ∉ find_blinds_to_rise tzoff sunrise_dt local_now_dt shutters) ∧
    (cfg.auto_down = false → ∀ o,
      (room, o) ∉ find_blinds_to_shut tzoff sunset_dt local_now_dt shutters) := by
  constructor
  · intro hup o hmem2
    unfold find_blinds_to_rise at hmem2
    split at hmem2
    · obtain ⟨⟨r2, c2⟩, hmem3, heq⟩ := List.mem_filterMap.mp hmem2
      have hr : r2 = room := (riseCheck_fst heq).symm
      subst hr
      have hc : c2 = cfg := keyval_unique hnd hmem3 hmem
      subst hc
      simp [riseCheck, hup] at heq
    · exact absurd hmem2 (List.not_mem_nil _)
  · intro hdown o hmem2
    unfold find_blinds_to_shut at hmem2
    obtain ⟨⟨r2, c2⟩, hmem3, heq⟩ := List.mem_filterMap.mp hmem2
    have hr : r2 = room := (shutCheck_fst heq).symm
    subst hr
    have hc : c2 = cfg := keyval_unique hnd hmem3 hmem
    subst hc
    simp [shutCheck, hdown] at heq

theorem auto_flags_gate_witness :
    ("living", 1) ∉ find_blinds_to_rise (fun _ => 0) 0 1000
      [("living", ⟨1, 2, false, false, none, none⟩)] ∧
    ("living", 2) ∉ find_blinds_to_shut (fun _ => 0) 0 1000
      [("living", ⟨1, 2, false, false, none, none⟩)] :=
  ⟨(auto_flags_gate (fun _ => 0) 0 0 1000
      [("living", ⟨1, 2, false, false, none, none⟩)] "living"
      ⟨1, 2, false, false, none, none⟩ (by simp) (by simp)).1 rfl 1,
   (auto_flags_gate (fun _ => 0) 0 0 1000
      [("living", ⟨1, 2, false, false, none, none⟩)] "living"
      ⟨1, 2, false, false, none, none⟩ (by simp) (by simp)).2 rfl 2⟩

/-- C8: `_parse_hour_minute` returns `None` — and, being total, raises
nothing — for an absent or empty value, for a string with no colon, for
non-numeric hour or minute parts, and for hours outside [0,23] or minutes
outside [0,59]; for a well-formed input it returns the instant obtained by
combining the reference date (the day of `local_now_dt`) with the parsed
hour and minute in Europe/Brussels (offset `tzoff`) and converting to a bare
UTC instant. -/
theorem parse_hour_minute_total_spec (tzoff : Int → Int) (local_now_dt : Int) :
    parse_hour_minute tzoff local_now_dt none = none ∧
    parse_hour_minute tzoff local_now_dt (some "") = none ∧
    (∀ s, splitOnce s = none →
      parse_hour_minute tzoff local_now_dt (some s) = none) ∧
    (∀ s hs ms, splitOnce s = some (hs, ms) →
      pyInt hs = none ∨ pyInt ms = none →
      parse_hour_minute tzoff local_now_dt (some s) = none) ∧
    (∀ s hs ms hour minute, splitOnce s = some (hs, ms) →
      pyInt hs = some hour → pyInt ms = some minute →
      ¬ (0 ≤ hour ∧ hour ≤ 23 ∧ 0 ≤ minute ∧ minute ≤ 59) →
      parse_hour_minute tzoff local_now_dt (some s) = none) ∧
    (∀ s hs ms hour minute, splitOnce s = some (hs, ms) →
      pyInt hs = some hour → pyInt ms = some minute →
      0 ≤ hour → hour ≤ 23 → 0 ≤ minute → minute ≤ 59 →
      parse_hour_minute tzoff local_now_dt (some s) =
        some (dayStart local_now_dt + (hour * 3600 + minute * 60) * usPerSec
          - tzoff (dayStart local_now_dt + (hour * 3600 + minute * 60) * usPerSec)
            * usPerSec)) := by
  have hempty : splitOnce "" = none := by decide
  refine ⟨rfl, by simp [parse_hour_minute], ?_, ?_, ?_, ?_⟩
  · intro s hsplit
    by_cases hse : s = ""
    · simp [parse_hour_minute, hse]
    · simp [parse_hour_minute, hse, hsplit]
  · intro s hs ms hsplit hpn
    have hse : s ≠ "" := by
      intro h0
      rw [h0, hempty] at hsplit
      exact Option.noConfusion hsplit
    rcases hpn with hpn | hpn
    · simp [parse_hour_minute, hse, hsplit, hpn]
    · rcases hh : pyInt hs with _ | hour
      · simp [parse_hour_minute, hse, hsplit, hh]
      · simp [parse_hour_minute, hse, hsplit, hh, hpn]
  · intro s hs ms hour minute hsplit hph hpm hrange
    have hse : s ≠ "" := by
      intro h0
      rw [h0, hempty] at hsplit
      exact Option.noConfusion hsplit
    simp [parse_hour_minute, hse, hsplit, hph, hpm, hrange]
  · intro s hs ms hour minute hsplit hph hpm h0 h1 h2 h3
    have hse : s ≠ "" := by
      intro h4
      rw [h4, hempty] at hsplit
      exact Option.noConfusion hsplit
    simp [parse_hour_minute, hse, hsplit, hph, hpm, h0, h1, h2, h3]

theorem parse_hour_minute_total_spec_witness :
    parse_hour_minute (fun _ => 3600) 1000 (some "0700") = none ∧
    parse_hour_minute (fun _ => 3600) 1000 (some "7:aa") = none ∧
    parse_hour_minute (fun _ => 3600) 1000 (some "24:00") = none ∧
    parse_hour_minute (fun _ => 3600) 1000 (some "7:30") = some 23400000000 :=
  ⟨(parse_hour_minute_total_spec (fun _ => 3600) 1000).2.2.1 "0700" (by decide),
   (parse_hour_minute_total_spec (fun _ => 3600) 1000).2.2.2.1 "7:aa" "7" "aa"
     (by decide) (Or.inr (by decide)),
   (parse_hour_minute_total_spec (fun _ => 3600) 1000).2.2.2.2.1 "24:00" "24"
     "00" 24 0 (by decide) (by decide) (by decide) (by decide),
   by
    have h := (parse_hour_minute_total_spec (fun _ => 3600) 1000).2.2.2.2.2
      "7:30" "7" "30" 7 30 (by decide) (by decide) (by decide) (by decide)
      (by decide) (by decide) (by decide)
    rw [h]
    decide⟩

end OmShutters
